import Mathlib

/-!
Shallow embedding of `genepro/evo.py` (class `Evolution`): the generational
loop, the elitism and replacement policy, replay-memory bookkeeping, the
termination policy, and the gradient-refinement loop that tunes the
champion's constants.

Modelling decisions:
* An individual is abstracted to an identifier `id` (standing for its tree
  structure) together with the scalar statistics the control flow reads and
  writes (`fitness`, `wins`, `games`).  Fitness is modelled as `Int`: only
  the ordering of fitness values matters to the loop.
* Replay transitions carry rational rewards; Q-values are rationals, so the
  gradient-refinement target arithmetic (`reward + 0.99 * max`) is exact.
* External collaborators (random multitree generation, parent selection,
  the variation pipeline, the fitness function, the wall clock) enter as
  oracle parameters exactly where `evo.py` calls out to them.  The fitness
  function returns `(fitness, replay contribution, wins, games)`.
* Run-aborting exceptions in the Python code (IndexError on `memories[0]`
  for an empty evaluation batch, IndexError on a too-short batch in an
  assignment loop) are modelled by returning `none`.
-/

/-- Replay transition `(state, action, next_state, reward)`; `next_state`
is `none` for a terminal transition (Python `None`). -/
structure Transition where
  state : Int
  action : Int
  next_state : Option Int
  reward : ℚ
deriving DecidableEq, Repr

/-- Result of one fitness-function call on an individual, in the order the
tuple is produced: `(fitness, replay contribution, wins, games)`. -/
structure EvalRes where
  fitness : Int
  memory : List Transition
  wins : Nat
  games : Nat
deriving DecidableEq, Repr

/-- An individual of the population: `id` stands for the (opaque) multitree
structure; `fitness`, `wins` and `games` are the statistics `evo.py` reads
and writes on it. -/
structure Indiv where
  id : Nat
  fitness : Int
  wins : Nat
  games : Nat
deriving DecidableEq, Repr

/-- Default individual used only to give total meaning to indexing that is
guarded to be in range on every reachable path. -/
def dummyIndiv : Indiv := { id := 0, fitness := 0, wins := 0, games := 0 }

/-- Configuration fields of `Evolution.__init__` that the claims depend on.
The remaining constructor arguments (node vocabularies, variation and
selection descriptors, `n_jobs`, ...) are consumed by the external
collaborators and are absorbed into the oracles. -/
structure Config where
  pop_size : Nat
  elitism : ℚ
  max_evals : Option Nat
  max_gens : Option Nat
  max_time : Option Nat
deriving DecidableEq, Repr

/-- Mutable state of an `Evolution` object (the fields touched by
`_initialize_population`, `_perform_generation` and `evolve`). -/
structure EvoState where
  population : List Indiv
  num_gens : Nat
  num_evals : Nat
  best_of_gens : List Indiv
  bestFitnesses : List Int
  memory : List Transition
deriving DecidableEq, Repr

/-- Maximum of a list with a default for the empty case (`np.max`,
Python `max`, `torch.max` semantics; the empty case raises in Python and
is unreachable behind the guards that model those crashes). -/
def foldMax {α : Type} [LinearOrder α] (d : α) : List α → α
  | [] => d
  | x :: xs => xs.foldl max x

/-- Minimum of a list with a default for the empty case. -/
def foldMin {α : Type} [LinearOrder α] (d : α) : List α → α
  | [] => d
  | x :: xs => xs.foldl min x

/-- Index of the first occurrence of `a` (length of the list when absent). -/
def idxOfFirst {α : Type} [DecidableEq α] (a : α) : List α → Nat
  | [] => 0
  | x :: xs => if x = a then 0 else idxOfFirst a xs + 1

/-- `np.argmax`: index of the first maximal element. -/
def argmaxIdx (l : List Int) : Nat := idxOfFirst (foldMax 0 l) l

/-- `np.argmin`: index of the first minimal element. -/
def argminIdx (l : List Int) : Nat := idxOfFirst (foldMin 0 l) l

/-- `self.population[np.argmax([t.fitness for t in self.population])]`. -/
def bestOf (pop : List Indiv) : Indiv :=
  pop.getD (argmaxIdx (pop.map (·.fitness))) dummyIndiv

/-- `int(self.elitism * self.pop_size)` (evo.py line 256); for the
non-negative fractions at hand Python `int()` truncation is the floor
`⌊elitism * pop_size⌋`, computed here on the exact fraction
`elitism = num/den` as `(num * pop_size).fdiv den` (see
`eliteCount_eq_floor` below). -/
def eliteCount (cfg : Config) : Nat :=
  ((cfg.elitism.num * (cfg.pop_size : Int)).fdiv (cfg.elitism.den : Int)).toNat

/-- Insertion into a fitness-descending list, after existing entries of
equal fitness (matching the stability of Python `sorted`). -/
def insertDesc (x : Indiv) : List Indiv → List Indiv
  | [] => [x]
  | y :: ys => if x.fitness ≤ y.fitness then y :: insertDesc x ys else x :: y :: ys

/-- `sorted(self.population, key=lambda x: x.fitness, reverse=True)`:
stable sort by fitness, descending. -/
def sortDesc (pop : List Indiv) : List Indiv :=
  pop.foldl (fun acc x => insertDesc x acc) []

/-- `deepcopy(sorted(...)[:elite_count])` (evo.py line 257); deep copies
are value copies in this embedding. -/
def eliteSnapshot (cfg : Config) (pop : List Indiv) : List Indiv :=
  (sortDesc pop).take (eliteCount cfg)

/-- Writing one evaluation result back onto an individual
(`x.fitness = fitnesses[0][i]; x.games += fitnesses[3][i]; x.wins += fitnesses[2][i]`,
evo.py lines 282-291 for elites and 309-312 for offspring; the second
elite loop re-assigns the same fitness and is a no-op). -/
def evalAssign (ev : Indiv → EvalRes) (t : Indiv) : Indiv :=
  { t with fitness := (ev t).fitness,
           wins := t.wins + (ev t).wins,
           games := t.games + (ev t).games }

/-- The elite batch after re-evaluation (evo.py lines 275-291). -/
def reEvalElites (cfg : Config) (ev : Indiv → EvalRes) (pop : List Indiv) : List Indiv :=
  (eliteSnapshot cfg pop).map (evalAssign ev)

/-- The offspring after their evaluation results are written back; the
assignment loop runs over `range(self.pop_size)` (evo.py lines 309-313),
leaving any entries beyond `pop_size` untouched. -/
def evalOffspring (cfg : Config) (ev : Indiv → EvalRes) (offspring : List Indiv) : List Indiv :=
  (offspring.take cfg.pop_size).map (evalAssign ev) ++ offspring.drop cfg.pop_size

/-- Replay contributions of a batch, one list per evaluated individual
(`fitnesses[1]` after the transpose). -/
def batchMemories (ev : Indiv → EvalRes) (batch : List Indiv) : List (List Transition) :=
  (batch.map ev).map (·.memory)

/-- `memory = memories[0]; for m in range(1, len(memories)): memory += memories[m]`
(evo.py lines 186-188 and 303-305); `none` models the IndexError raised on
an empty batch. -/
def joinMemories : List (List Transition) → Option (List Transition)
  | [] => none
  | m :: ms => some (ms.foldl (· ++ ·) m)

/-- `lowest = population[np.argmin(...)]; population.remove(lowest);
population.append(e)` — one remove-lowest/append step of the replacement
policy (evo.py lines 327-329 and 338-342). -/
def replaceLowest (pop : List Indiv) (e : Indiv) : List Indiv :=
  pop.eraseIdx (argminIdx (pop.map (·.fitness))) ++ [e]

/-- `for i in range(1, elite_count): ...` — the elite reinsertion loop,
folded over the elites it actually visits (indices `1..elite_count-1`). -/
def eliteLoop (es : List Indiv) (pop : List Indiv) : List Indiv :=
  es.foldl replaceLowest pop

/-- The population after offspring replacement and the elite reinsertion
loop (evo.py lines 324-329): the offspring become the population, then
each of `elites[1:]` displaces the current lowest-fitness individual. -/
def genPop (cfg : Config) (ev : Indiv → EvalRes) (offspring : List Indiv) (s : EvoState) :
    List Indiv :=
  eliteLoop ((reEvalElites cfg ev s.population).drop 1) (evalOffspring cfg ev offspring)

/-- One call of `Evolution._perform_generation` (evo.py lines 248-345).
Parent selection and offspring generation are external and stochastic, so
the generated offspring arrive as the `offspring` argument; `ev` is the
fitness function under the seeds of this generation.  `none` models the
exceptions that abort a generation:
* an empty elite batch makes `fitnesses[1]` / `memories[0]` raise
  (lines 277-280) — also covering an empty population, which would raise
  at line 270 first;
* an elite batch shorter than `elite_count` makes the assignment loop
  raise (lines 282-285);
* an empty offspring batch raises at lines 298-303;
* an offspring batch shorter than `pop_size` makes the assignment loop
  raise (lines 309-313).
The elite batch's replay contributions are read (`memories[0]`) but never
merged into `self.memory`, exactly as in the source. -/
def performGeneration (cfg : Config) (ev : Indiv → EvalRes) (offspring : List Indiv)
    (s : EvoState) : Option EvoState :=
  match (eliteSnapshot cfg s.population).map ev with
  | [] => none
  | _ :: _ =>
    if (eliteSnapshot cfg s.population).length < eliteCount cfg then none
    else match joinMemories (batchMemories ev offspring) with
      | none => none
      | some offMem =>
        if offspring.length < cfg.pop_size then none
        else
          some { population :=
                   replaceLowest (genPop cfg ev offspring s) (bestOf (genPop cfg ev offspring s)),
                 num_gens := s.num_gens + 1,
                 num_evals := s.num_evals + cfg.pop_size,
                 best_of_gens := s.best_of_gens ++ [bestOf (genPop cfg ev offspring s)],
                 bestFitnesses :=
                   s.bestFitnesses ++ [foldMax 0 ((genPop cfg ev offspring s).map (·.fitness))],
                 memory := offMem ++ s.memory }

/-- `Evolution._initialize_population` (evo.py lines 166-246): generate
`pop_size` random multitrees (`gen` is the external generator, invoked once
per index of `range(pop_size)`), evaluate them, assign fitnesses, replace
the replay memory by the joined contributions, count `pop_size`
evaluations and archive a deep copy of the initial best.  The embedded
gradient-refinement loop (lines 202-242) mutates only the champion's
internal constants, which this individual abstraction does not carry; it
is modelled separately by `refineConstants` below. -/
def initPopulation (cfg : Config) (gen : Nat → Indiv) (ev : Indiv → EvalRes)
    (s : EvoState) : Option EvoState :=
  match joinMemories (batchMemories ev ((List.range cfg.pop_size).map gen)) with
  | none => none
  | some mem =>
    some { s with
           population := ((List.range cfg.pop_size).map gen).map
             (fun t => { t with fitness := (ev t).fitness }),
           num_evals := s.num_evals + cfg.pop_size,
           memory := mem,
           best_of_gens := s.best_of_gens ++
             [bestOf (((List.range cfg.pop_size).map gen).map
               (fun t => { t with fitness := (ev t).fitness }))] }

/-- Python truthiness of an optional numeric bound: `None` and `0` are
falsy (`if self.max_time and ...`). -/
def optTruthy : Option Nat → Bool
  | none => false
  | some v => decide (v ≠ 0)

/-- `Evolution._must_terminate` (evo.py lines 148-164); `elapsed` is the
wall-clock reading `time.time() - self.start_time` of this call. -/
def mustTerminate (cfg : Config) (elapsed numEvals numGens : Nat) : Bool :=
  if optTruthy cfg.max_time && decide (cfg.max_time.getD 0 ≤ elapsed) then true
  else if optTruthy cfg.max_evals && decide (cfg.max_evals.getD 0 ≤ numEvals) then true
  else if optTruthy cfg.max_gens && decide (cfg.max_gens.getD 0 ≤ numGens) then true
  else false

/-- The generational `while not self._must_terminate()` loop of
`Evolution.evolve` (evo.py lines 363-365).  `evs g` and `offs g` are the
fitness oracle and generated offspring of the generation performed when
`num_gens = g`; `times g` is the clock reading at that check.  The loop is
given fuel to stay total: `none` for exhausted fuel or an aborted
generation, `some` for a run that reached termination. -/
def evolveLoop (cfg : Config) (evs : Nat → Indiv → EvalRes) (offs : Nat → List Indiv)
    (times : Nat → Nat) : Nat → EvoState → Option EvoState
  | 0, _ => none
  | Nat.succ fuel, s =>
    if mustTerminate cfg (times s.num_gens) s.num_evals s.num_gens then some s
    else match performGeneration cfg (evs s.num_gens) (offs s.num_gens) s with
      | none => none
      | some s2 => evolveLoop cfg evs offs times fuel s2

/-- `Evolution.evolve` (evo.py lines 349-365): initialize only when the
population equals the empty list (`if self.population == list()`), then
run the generational loop.  Verbose logging is omitted. -/
def evolve (cfg : Config) (gen : Nat → Indiv) (evInit : Indiv → EvalRes)
    (evs : Nat → Indiv → EvalRes) (offs : Nat → List Indiv) (times : Nat → Nat)
    (fuel : Nat) (s : EvoState) : Option EvoState :=
  if s.population = [] then
    match initPopulation cfg gen evInit s with
    | none => none
    | some s1 => evolveLoop cfg evs offs times fuel s1
  else evolveLoop cfg evs offs times fuel s

/-! Gradient refinement (evo.py lines 202-242).  The champion's constants
are a list of rationals; `Qtarget` abstracts
`target_tree.get_output_pt`, mapping a state to the row of Q-values over
the actions. -/

/-- `batch_size = 128` (evo.py line 203). -/
def batch_size : Nat := 128

/-- `GAMMA = 0.99` (evo.py line 204). -/
def GAMMA : ℚ := 99 / 100

/-- Number of refinement iterations, `for _ in range(500)` (evo.py line 211). -/
def refineIters : Nat := 500

/-- `non_final_mask` (evo.py lines 219-220). -/
def nonFinalMask (batch : List Transition) : List Bool :=
  batch.map (fun tr => tr.next_state.isSome)

/-- `[s for s in batch.next_state if s is not None]` (evo.py lines 222-223). -/
def nonFinalNextStates (batch : List Transition) : List Int :=
  batch.filterMap (·.next_state)

/-- `next_state_values = torch.zeros(...); next_state_values[mask] = vals`
(evo.py lines 229-231): positions where the mask is true consume the
computed values in order, all other positions stay zero. -/
def maskedAssign : List Bool → List ℚ → List ℚ
  | [], _ => []
  | true :: ms, v :: vs => v :: maskedAssign ms vs
  | true :: ms, [] => 0 :: maskedAssign ms []
  | false :: ms, vs => 0 :: maskedAssign ms vs

/-- `next_state_values` after the masked assignment of
`target_tree.get_output_pt(non_final_next_states).max(1)[0]` (evo.py
lines 229-231): `.max(1)[0]` is the rowwise maximum over actions. -/
def nextStateValues (Qtarget : Int → List ℚ) (batch : List Transition) : List ℚ :=
  maskedAssign (nonFinalMask batch)
    ((nonFinalNextStates batch).map (fun st => foldMax 0 (Qtarget st)))

/-- `expected_state_action_values = (next_state_values * GAMMA) + reward_batch`
(evo.py line 233). -/
def expectedStateActionValues (Qtarget : Int → List ℚ) (batch : List Transition) : List ℚ :=
  List.zipWith (fun v tr => v * GAMMA + tr.reward) (nextStateValues Qtarget batch) batch

/-- Target value of one transition in the words of the specification:
`reward + discount * max_over_actions(target_snapshot_output(next_state))`,
and exactly `reward` (zero future term) when `next_state` is absent.
This definition follows the spec text and is compared against the
code-derived `expectedStateActionValues`. -/
def specTargetValue (Qtarget : Int → List ℚ) (tr : Transition) : ℚ :=
  match tr.next_state with
  | some st => tr.reward + GAMMA * foldMax 0 (Qtarget st)
  | none => tr.reward

/-- The target computation of one refinement iteration on a sampled
minibatch, up to and including line 233 of evo.py; `none` models the
exception `torch.cat` raises on the empty list of non-final next states
(line 222). -/
def refineSampleTargets (Qtarget : Int → List ℚ) (batch : List Transition) :
    Option (List ℚ) :=
  match nonFinalNextStates batch with
  | [] => none
  | _ :: _ => some (expectedStateActionValues Qtarget batch)

/-- The guarded refinement loop over the champion's constants (evo.py
lines 206-242): `for _ in range(500): if len(constants) > 0 and
len(self.memory) > batch_size: <one optimizer step>`.  The guard reads the
length of the constants list bound before the loop and the (unchanged)
replay-memory length, so it is decided once and for all; `step` abstracts
one full sample/backpropagate/clip/optimize update of the constants. -/
def refineConstants (step : List ℚ → List ℚ) (memLen : Nat) (consts : List ℚ) : List ℚ :=
  (fun cs => if 0 < consts.length ∧ batch_size < memLen then step cs else cs)^[refineIters]
    consts

/-! Concrete scenarios used by the counterexamples and the witnesses.
Individual literals are `⟨id, fitness, wins, games⟩`. -/

/-- Scenario for claim C1: two individuals, `elitism = 1/2` (elite count 1),
so the reinsertion loop `range(1, 1)` is empty and the single elite — the
previous champion of fitness 10 — is dropped; all offspring score below 10. -/
def cfgC1x : Config :=
  { pop_size := 2, elitism := mkRat 1 2, max_evals := none, max_gens := some 1,
    max_time := none }

def sC1x : EvoState :=
  { population := [⟨0, 10, 0, 0⟩, ⟨1, 0, 0, 0⟩], num_gens := 0, num_evals := 0,
    best_of_gens := [⟨0, 10, 0, 0⟩], bestFitnesses := [], memory := [] }

def evC1x : Indiv → EvalRes := fun t =>
  if t.id = 2 then ⟨5, [], 0, 0⟩ else if t.id = 3 then ⟨3, [], 0, 0⟩ else ⟨10, [], 0, 0⟩

def offC1x : List Indiv := [⟨2, 0, 0, 0⟩, ⟨3, 0, 0, 0⟩]

/-- The state `performGeneration` produces in the C1 scenario. -/
def resC1x : EvoState :=
  { population := [⟨2, 5, 0, 0⟩, ⟨2, 5, 0, 0⟩], num_gens := 1, num_evals := 2,
    best_of_gens := [⟨0, 10, 0, 0⟩, ⟨2, 5, 0, 0⟩], bestFitnesses := [5], memory := [] }

/-- Scenario for claim C2: `elitism = 1` on a population of two, so
`elite_count = 2`, yet the loop reinserts only `elites[1]` (id 1); the top
elite id 0 appears nowhere in the next population. -/
def cfgC2x : Config :=
  { pop_size := 2, elitism := 1, max_evals := none, max_gens := some 1, max_time := none }

def sC2x : EvoState :=
  { population := [⟨0, 10, 0, 0⟩, ⟨1, 8, 0, 0⟩], num_gens := 0, num_evals := 0,
    best_of_gens := [⟨0, 10, 0, 0⟩], bestFitnesses := [], memory := [] }

def evC2x : Indiv → EvalRes := fun t =>
  if t.id = 2 then ⟨5, [], 0, 0⟩ else if t.id = 3 then ⟨3, [], 0, 0⟩
  else if t.id = 0 then ⟨10, [], 0, 0⟩ else ⟨8, [], 0, 0⟩

def offC2x : List Indiv := [⟨2, 0, 0, 0⟩, ⟨3, 0, 0, 0⟩]

/-- The state `performGeneration` produces in the C2 scenario. -/
def resC2x : EvoState :=
  { population := [⟨1, 8, 0, 0⟩, ⟨1, 8, 0, 0⟩], num_gens := 1, num_evals := 2,
    best_of_gens := [⟨0, 10, 0, 0⟩, ⟨1, 8, 0, 0⟩], bestFitnesses := [8], memory := [] }

/-- Scenario for claim C3: the single elite returns replay contribution
`[trC3e]`, the single offspring returns `[trC3o]`. -/
def trC3e : Transition := ⟨0, 0, some 1, 1⟩

def trC3o : Transition := ⟨5, 1, none, 2⟩

def cfgC3x : Config :=
  { pop_size := 1, elitism := 1, max_evals := none, max_gens := some 1, max_time := none }

def sC3x : EvoState :=
  { population := [⟨0, 10, 0, 0⟩], num_gens := 0, num_evals := 0,
    best_of_gens := [⟨0, 10, 0, 0⟩], bestFitnesses := [], memory := [] }

def evC3x : Indiv → EvalRes := fun t =>
  if t.id = 1 then ⟨5, [trC3o], 0, 0⟩ else ⟨10, [trC3e], 0, 0⟩

def offC3x : List Indiv := [⟨1, 0, 0, 0⟩]

/-- The state `performGeneration` produces in the C3 scenario. -/
def resC3x : EvoState :=
  { population := [⟨1, 5, 0, 0⟩], num_gens := 1, num_evals := 1,
    best_of_gens := [⟨0, 10, 0, 0⟩, ⟨1, 5, 0, 0⟩], bestFitnesses := [5],
    memory := [trC3o] }

/-- Scenario for claim C4: one elite and one offspring are evaluated in the
generation (two fitness-function calls), `num_evals` starts at zero. -/
def cfgC4x : Config :=
  { pop_size := 1, elitism := 1, max_evals := none, max_gens := some 1, max_time := none }

def sC4x : EvoState :=
  { population := [⟨0, 10, 0, 0⟩], num_gens := 0, num_evals := 0,
    best_of_gens := [⟨0, 10, 0, 0⟩], bestFitnesses := [], memory := [] }

def evC4x : Indiv → EvalRes := fun t =>
  if t.id = 1 then ⟨5, [], 0, 0⟩ else ⟨10, [], 0, 0⟩

def offC4x : List Indiv := [⟨1, 0, 0, 0⟩]

/-- The state `performGeneration` produces in the C4 scenario. -/
def resC4x : EvoState :=
  { population := [⟨1, 5, 0, 0⟩], num_gens := 1, num_evals := 1,
    best_of_gens := [⟨0, 10, 0, 0⟩, ⟨1, 5, 0, 0⟩], bestFitnesses := [5], memory := [] }

/-- Scenario for claim C5: `elitism = 0` is inside the documented range
`[0, 1]`, but makes the elite batch empty, so the generation aborts with an
IndexError at `memories[0]`. -/
def cfgC5x : Config :=
  { pop_size := 2, elitism := 0, max_evals := none, max_gens := some 1, max_time := none }

def sC5x : EvoState :=
  { population := [⟨0, 10, 0, 0⟩, ⟨1, 0, 0, 0⟩], num_gens := 0, num_evals := 0,
    best_of_gens := [⟨0, 10, 0, 0⟩], bestFitnesses := [], memory := [] }

def evC5x : Indiv → EvalRes := fun t =>
  if t.id = 2 then ⟨5, [], 0, 0⟩ else ⟨10, [], 0, 0⟩

def offC5x : List Indiv := [⟨2, 0, 0, 0⟩, ⟨3, 0, 0, 0⟩]

/-- Witness scenario for the amended claim C5: `elitism = 1` on one
individual, so `elite_count = 1 = pop_size`. -/
def cfgC5w : Config :=
  { pop_size := 1, elitism := 1, max_evals := none, max_gens := some 1, max_time := none }

def sC5w : EvoState :=
  { population := [⟨0, 10, 0, 0⟩], num_gens := 0, num_evals := 0,
    best_of_gens := [⟨0, 10, 0, 0⟩], bestFitnesses := [], memory := [] }

def evC5w : Indiv → EvalRes := fun t =>
  if t.id = 1 then ⟨5, [], 0, 0⟩ else ⟨10, [], 0, 0⟩

def offC5w : List Indiv := [⟨1, 0, 0, 0⟩]

/-- Scenario for claim C6: a run started from a non-empty user-supplied seed
population, with `max_gens = 1` and the other bounds unset. -/
def cfgC6x : Config :=
  { pop_size := 1, elitism := 1, max_evals := none, max_gens := some 1, max_time := none }

def sC6x : EvoState :=
  { population := [⟨0, 10, 0, 0⟩], num_gens := 0, num_evals := 0,
    best_of_gens := [], bestFitnesses := [], memory := [] }

def genC6x : Nat → Indiv := fun n => ⟨n, 0, 0, 0⟩

def evInitC6x : Indiv → EvalRes := fun _ => ⟨7, [], 0, 0⟩

def evsC6x : Nat → Indiv → EvalRes := fun _ t =>
  if t.id = 1 then ⟨5, [], 0, 0⟩ else ⟨7, [], 0, 0⟩

def offsC6x : Nat → List Indiv := fun _ => [⟨1, 0, 0, 0⟩]

def timesC6x : Nat → Nat := fun _ => 0

/-- Witness scenario for the amended claim C6: the same run started from an
empty population, so the engine initializes it. -/
def sC6w : EvoState :=
  { population := [], num_gens := 0, num_evals := 0,
    best_of_gens := [], bestFitnesses := [], memory := [] }

/-- The state `evolve` produces in the C6 witness scenario. -/
def resC6w : EvoState :=
  { population := [⟨1, 5, 0, 0⟩], num_gens := 1, num_evals := 2,
    best_of_gens := [⟨0, 7, 0, 0⟩, ⟨1, 5, 0, 0⟩], bestFitnesses := [5], memory := [] }

/-- Witness scenario for claim C9: `max_gens = 2`, the other bounds unset. -/
def cfgC9w : Config :=
  { pop_size := 1, elitism := 1, max_evals := none, max_gens := some 2, max_time := none }

def sC9w : EvoState :=
  { population := [⟨0, 10, 0, 0⟩], num_gens := 0, num_evals := 0,
    best_of_gens := [⟨0, 10, 0, 0⟩], bestFitnesses := [], memory := [] }

def evsC9w : Nat → Indiv → EvalRes := fun _ t =>
  if t.id = 1 then ⟨5, [], 0, 0⟩ else ⟨10, [], 0, 0⟩

def offsC9w : Nat → List Indiv := fun _ => [⟨1, 0, 0, 0⟩]

def timesC9w : Nat → Nat := fun _ => 0

/-! Helper lemmas about the list combinators used by the embedding. -/

lemma eliteCount_eq_floor (cfg : Config) :
    eliteCount cfg = (⌊cfg.elitism * (cfg.pop_size : ℚ)⌋).toNat := by
  unfold eliteCount
  rw [Int.fdiv_eq_ediv _ (by exact_mod_cast Nat.zero_le cfg.elitism.den)]
  rw [← Rat.floor_intCast_div_natCast (cfg.elitism.num * (cfg.pop_size : Int)) cfg.elitism.den]
  congr 2
  conv_rhs => rw [← Rat.num_div_den cfg.elitism]
  push_cast
  ring

lemma le_foldl_max {α : Type} [LinearOrder α] (a : α) (l : List α) :
    a ≤ l.foldl max a ∧ ∀ x ∈ l, x ≤ l.foldl max a := by
  induction l generalizing a with
  | nil => simp
  | cons y ys ih =>
    refine ⟨le_trans (le_max_left a y) (ih (max a y)).1, ?_⟩
    intro x hx
    rcases List.mem_cons.mp hx with rfl | hx
    · exact le_trans (le_max_right a x) (ih (max a x)).1
    · exact (ih (max a y)).2 x hx

lemma foldl_max_mem {α : Type} [LinearOrder α] (a : α) (l : List α) :
    l.foldl max a = a ∨ l.foldl max a ∈ l := by
  induction l generalizing a with
  | nil => exact Or.inl rfl
  | cons y ys ih =>
    rcases ih (max a y) with h | h
    · rcases max_choice a y with hm | hm
      · exact Or.inl (by rw [List.foldl_cons, h, hm])
      · exact Or.inr (by rw [List.foldl_cons, h, hm]; exact List.mem_cons_self _ _)
    · exact Or.inr (List.mem_cons_of_mem _ h)

lemma foldl_min_mem {α : Type} [LinearOrder α] (a : α) (l : List α) :
    l.foldl min a = a ∨ l.foldl min a ∈ l := by
  induction l generalizing a with
  | nil => exact Or.inl rfl
  | cons y ys ih =>
    rcases ih (min a y) with h | h
    · rcases min_choice a y with hm | hm
      · exact Or.inl (by rw [List.foldl_cons, h, hm])
      · exact Or.inr (by rw [List.foldl_cons, h, hm]; exact List.mem_cons_self _ _)
    · exact Or.inr (List.mem_cons_of_mem _ h)

lemma foldMax_mem {α : Type} [LinearOrder α] (d : α) {l : List α} (h : l ≠ []) :
    foldMax d l ∈ l := by
  cases l with
  | nil => exact absurd rfl h
  | cons x xs =>
    show xs.foldl max x ∈ x :: xs
    rcases foldl_max_mem x xs with h1 | h1
    · rw [h1]; exact List.mem_cons_self _ _
    · exact List.mem_cons_of_mem _ h1

lemma foldMin_mem {α : Type} [LinearOrder α] (d : α) {l : List α} (h : l ≠ []) :
    foldMin d l ∈ l := by
  cases l with
  | nil => exact absurd rfl h
  | cons x xs =>
    show xs.foldl min x ∈ x :: xs
    rcases foldl_min_mem x xs with h1 | h1
    · rw [h1]; exact List.mem_cons_self _ _
    · exact List.mem_cons_of_mem _ h1

lemma le_foldMax {α : Type} [LinearOrder α] (d : α) {l : List α} {x : α} (h : x ∈ l) :
    x ≤ foldMax d l := by
  cases l with
  | nil => exact absurd h (List.not_mem_nil x)
  | cons y ys =>
    show x ≤ ys.foldl max y
    rcases List.mem_cons.mp h with rfl | h
    · exact (le_foldl_max x ys).1
    · exact (le_foldl_max y ys).2 x h

lemma idxOfFirst_lt_length {α : Type} [DecidableEq α] {a : α} {l : List α} (h : a ∈ l) :
    idxOfFirst a l < l.length := by
  induction l with
  | nil => exact absurd h (List.not_mem_nil a)
  | cons x xs ih =>
    by_cases hx : x = a
    · simp [idxOfFirst, hx]
    · have hmem : a ∈ xs := by
        rcases List.mem_cons.mp h with rfl | h2
        · exact absurd rfl hx
        · exact h2
      have := ih hmem
      simp only [idxOfFirst, if_neg hx, List.length_cons]
      omega

lemma getD_eq_getElem_of_lt {α : Type} {l : List α} {n : Nat} (h : n < l.length) (d : α) :
    l.getD n d = l[n] := by
  simp [List.getD_eq_getElem?_getD, List.getElem?_eq_getElem h]

lemma getD_idxOfFirst {α : Type} [DecidableEq α] {a : α} {l : List α} (h : a ∈ l) (d : α) :
    l.getD (idxOfFirst a l) d = a := by
  induction l with
  | nil => exact absurd h (List.not_mem_nil a)
  | cons x xs ih =>
    by_cases hx : x = a
    · simp [idxOfFirst, hx]
    · have hmem : a ∈ xs := by
        rcases List.mem_cons.mp h with rfl | h2
        · exact absurd rfl hx
        · exact h2
      simp only [idxOfFirst, if_neg hx, List.getD_cons_succ]
      exact ih hmem

lemma argmaxIdx_lt_length {l : List Int} (h : l ≠ []) : argmaxIdx l < l.length :=
  idxOfFirst_lt_length (foldMax_mem 0 h)

lemma argminIdx_lt_length {l : List Int} (h : l ≠ []) : argminIdx l < l.length :=
  idxOfFirst_lt_length (foldMin_mem 0 h)

lemma getD_argmaxIdx {l : List Int} (h : l ≠ []) (d : Int) :
    l.getD (argmaxIdx l) d = foldMax 0 l :=
  getD_idxOfFirst (foldMax_mem 0 h) d

lemma bestOf_mem {pop : List Indiv} (h : pop ≠ []) : bestOf pop ∈ pop := by
  have hmapne : pop.map (·.fitness) ≠ [] := by simpa using h
  have hlen : argmaxIdx (pop.map (·.fitness)) < pop.length := by
    simpa using argmaxIdx_lt_length hmapne
  unfold bestOf
  rw [getD_eq_getElem_of_lt hlen]
  exact List.getElem_mem _

lemma bestOf_fitness {pop : List Indiv} (h : pop ≠ []) :
    (bestOf pop).fitness = foldMax 0 (pop.map (·.fitness)) := by
  have hmapne : pop.map (·.fitness) ≠ [] := by simpa using h
  have hlen : argmaxIdx (pop.map (·.fitness)) < pop.length := by
    simpa using argmaxIdx_lt_length hmapne
  have h2 := getD_argmaxIdx hmapne (0 : Int)
  rw [getD_eq_getElem_of_lt (by simpa using hlen)] at h2
  unfold bestOf
  rw [getD_eq_getElem_of_lt hlen]
  simpa using h2

lemma fitness_le_bestOf {pop : List Indiv} {x : Indiv} (h : x ∈ pop) :
    x.fitness ≤ (bestOf pop).fitness := by
  have hne : pop ≠ [] := List.ne_nil_of_mem h
  rw [bestOf_fitness hne]
  exact le_foldMax 0 (List.mem_map_of_mem _ h)

lemma length_replaceLowest {pop : List Indiv} (e : Indiv) (h : pop ≠ []) :
    (replaceLowest pop e).length = pop.length := by
  have hmapne : pop.map (·.fitness) ≠ [] := by simpa using h
  have hidx : argminIdx (pop.map (·.fitness)) < pop.length := by
    simpa using argminIdx_lt_length hmapne
  have hpos : 0 < pop.length := List.length_pos.mpr h
  unfold replaceLowest
  rw [List.length_append, List.length_eraseIdx_of_lt hidx]
  simp
  omega

lemma replaceLowest_ne_nil (pop : List Indiv) (e : Indiv) : replaceLowest pop e ≠ [] := by
  unfold replaceLowest
  simp

lemma mem_replaceLowest {pop : List Indiv} {e x : Indiv} (h : x ∈ replaceLowest pop e) :
    x ∈ pop ∨ x = e := by
  unfold replaceLowest at h
  rcases List.mem_append.mp h with h | h
  · exact Or.inl ((List.eraseIdx_sublist _ _).mem h)
  · exact Or.inr (by simpa using h)

lemma eliteLoop_ne_nil {pop : List Indiv} (es : List Indiv) (h : pop ≠ []) :
    eliteLoop es pop ≠ [] := by
  induction es generalizing pop with
  | nil => simpa [eliteLoop]
  | cons e es ih =>
    show eliteLoop es (replaceLowest pop e) ≠ []
    exact ih (replaceLowest_ne_nil pop e)

lemma length_eliteLoop {pop : List Indiv} (es : List Indiv) (h : pop ≠ []) :
    (eliteLoop es pop).length = pop.length := by
  induction es generalizing pop with
  | nil => rfl
  | cons e es ih =>
    calc (eliteLoop (e :: es) pop).length
        = (eliteLoop es (replaceLowest pop e)).length := rfl
      _ = (replaceLowest pop e).length := ih (replaceLowest_ne_nil pop e)
      _ = pop.length := length_replaceLowest e h

lemma mem_eliteLoop {es pop : List Indiv} {x : Indiv} (h : x ∈ eliteLoop es pop) :
    x ∈ pop ∨ x ∈ es := by
  induction es generalizing pop with
  | nil => exact Or.inl h
  | cons e es ih =>
    have h3 : x ∈ eliteLoop es (replaceLowest pop e) := h
    rcases ih h3 with h1 | h1
    · rcases mem_replaceLowest h1 with h2 | h2
      · exact Or.inl h2
      · exact Or.inr (by simp [h2])
    · exact Or.inr (List.mem_cons_of_mem _ h1)

lemma length_insertDesc (x : Indiv) (l : List Indiv) :
    (insertDesc x l).length = l.length + 1 := by
  induction l with
  | nil => rfl
  | cons y ys ih =>
    by_cases h : x.fitness ≤ y.fitness <;> simp [insertDesc, h, ih]

lemma length_sortDesc (pop : List Indiv) : (sortDesc pop).length = pop.length := by
  suffices h : ∀ (l acc : List Indiv),
      (l.foldl (fun a x => insertDesc x a) acc).length = acc.length + l.length by
    simpa [sortDesc] using h pop []
  intro l
  induction l with
  | nil => simp
  | cons y ys ih =>
    intro acc
    rw [List.foldl_cons, ih, length_insertDesc]
    simp
    omega

lemma length_evalOffspring (cfg : Config) (ev : Indiv → EvalRes) (offspring : List Indiv) :
    (evalOffspring cfg ev offspring).length = offspring.length := by
  simp [evalOffspring]
  omega

lemma evalOffspring_ne_nil {cfg : Config} {ev : Indiv → EvalRes} {offspring : List Indiv}
    (h : offspring ≠ []) : evalOffspring cfg ev offspring ≠ [] := by
  intro hc
  apply h
  have := length_evalOffspring cfg ev offspring
  rw [hc] at this
  exact List.eq_nil_of_length_eq_zero this.symm

lemma genPop_ne_nil {cfg : Config} {ev : Indiv → EvalRes} {offspring : List Indiv}
    {s : EvoState} (h : offspring ≠ []) : genPop cfg ev offspring s ≠ [] :=
  eliteLoop_ne_nil _ (evalOffspring_ne_nil h)

lemma length_genPop {cfg : Config} {ev : Indiv → EvalRes} {offspring : List Indiv}
    {s : EvoState} (h : offspring ≠ []) :
    (genPop cfg ev offspring s).length = offspring.length := by
  unfold genPop
  rw [length_eliteLoop _ (evalOffspring_ne_nil h), length_evalOffspring]

/-! Structural lemmas about one generation, initialization and the loop. -/

lemma performGeneration_shape {cfg : Config} {ev : Indiv → EvalRes} {offspring : List Indiv}
    {s s2 : EvoState} (h : performGeneration cfg ev offspring s = some s2) :
    offspring ≠ [] ∧
    s2 = { population :=
             replaceLowest (genPop cfg ev offspring s) (bestOf (genPop cfg ev offspring s)),
           num_gens := s.num_gens + 1,
           num_evals := s.num_evals + cfg.pop_size,
           best_of_gens := s.best_of_gens ++ [bestOf (genPop cfg ev offspring s)],
           bestFitnesses :=
             s.bestFitnesses ++ [foldMax 0 ((genPop cfg ev offspring s).map (·.fitness))],
           memory := (joinMemories (batchMemories ev offspring)).getD [] ++ s.memory } := by
  unfold performGeneration at h
  split at h
  · simp at h
  · split at h
    · simp at h
    · split at h
      · simp at h
      · rename_i offMem heq2
        split at h
        · simp at h
        · injection h with h
          refine ⟨?_, ?_⟩
          · intro hc
            subst hc
            simp [batchMemories, joinMemories] at heq2
          · rw [← h]
            simp [heq2]

lemma performGeneration_num_gens {cfg : Config} {ev : Indiv → EvalRes} {offspring : List Indiv}
    {s s2 : EvoState} (h : performGeneration cfg ev offspring s = some s2) :
    s2.num_gens = s.num_gens + 1 := by
  obtain ⟨-, h2⟩ := performGeneration_shape h
  rw [h2]

lemma performGeneration_num_evals {cfg : Config} {ev : Indiv → EvalRes} {offspring : List Indiv}
    {s s2 : EvoState} (h : performGeneration cfg ev offspring s = some s2) :
    s2.num_evals = s.num_evals + cfg.pop_size := by
  obtain ⟨-, h2⟩ := performGeneration_shape h
  rw [h2]

lemma performGeneration_bog {cfg : Config} {ev : Indiv → EvalRes} {offspring : List Indiv}
    {s s2 : EvoState} (h : performGeneration cfg ev offspring s = some s2) :
    s2.best_of_gens = s.best_of_gens ++ [bestOf (genPop cfg ev offspring s)] := by
  obtain ⟨-, h2⟩ := performGeneration_shape h
  rw [h2]

lemma performGeneration_memory {cfg : Config} {ev : Indiv → EvalRes} {offspring : List Indiv}
    {s s2 : EvoState} (h : performGeneration cfg ev offspring s = some s2) :
    s2.memory = (joinMemories (batchMemories ev offspring)).getD [] ++ s.memory := by
  obtain ⟨-, h2⟩ := performGeneration_shape h
  rw [h2]

lemma performGeneration_population {cfg : Config} {ev : Indiv → EvalRes} {offspring : List Indiv}
    {s s2 : EvoState} (h : performGeneration cfg ev offspring s = some s2) :
    s2.population =
      replaceLowest (genPop cfg ev offspring s) (bestOf (genPop cfg ev offspring s)) := by
  obtain ⟨-, h2⟩ := performGeneration_shape h
  rw [h2]

lemma performGeneration_pop_length {cfg : Config} {ev : Indiv → EvalRes} {offspring : List Indiv}
    {s s2 : EvoState} (h : performGeneration cfg ev offspring s = some s2) :
    s2.population.length = offspring.length := by
  obtain ⟨hne, h2⟩ := performGeneration_shape h
  rw [h2]
  show (replaceLowest (genPop cfg ev offspring s) (bestOf (genPop cfg ev offspring s))).length
      = offspring.length
  rw [length_replaceLowest _ (genPop_ne_nil hne), length_genPop hne]

lemma performGeneration_total {cfg : Config} {ev : Indiv → EvalRes} {offspring : List Indiv}
    {s : EvoState} (hec : 1 ≤ eliteCount cfg) (hecle : eliteCount cfg ≤ cfg.pop_size)
    (hpop : s.population.length = cfg.pop_size) (hoff : offspring.length = cfg.pop_size) :
    ∃ s2, performGeneration cfg ev offspring s = some s2 := by
  have hsnaplen : (eliteSnapshot cfg s.population).length = eliteCount cfg := by
    unfold eliteSnapshot
    rw [List.length_take, length_sortDesc, hpop]
    omega
  have hsnapmapne : (eliteSnapshot cfg s.population).map ev ≠ [] := by
    intro hc
    rw [List.map_eq_nil_iff] at hc
    rw [hc] at hsnaplen
    simp at hsnaplen
    omega
  have hbmne : batchMemories ev offspring ≠ [] := by
    intro hc
    simp only [batchMemories, List.map_eq_nil_iff] at hc
    rw [hc] at hoff
    simp at hoff
    omega
  obtain ⟨a, as, hsnap2⟩ := List.exists_cons_of_ne_nil hsnapmapne
  obtain ⟨m, ms, hbm2⟩ := List.exists_cons_of_ne_nil hbmne
  have h1 : ¬ ((eliteSnapshot cfg s.population).length < eliteCount cfg) := by omega
  have h2 : ¬ (offspring.length < cfg.pop_size) := by omega
  suffices hs : (performGeneration cfg ev offspring s).isSome by
    obtain ⟨s2, h3⟩ := Option.isSome_iff_exists.mp hs
    exact ⟨s2, h3⟩
  unfold performGeneration
  rw [hsnap2, hbm2]
  simp [joinMemories, if_neg h1, if_neg h2]

lemma initPopulation_shape {cfg : Config} {gen : Nat → Indiv} {ev : Indiv → EvalRes}
    {s s2 : EvoState} (h : initPopulation cfg gen ev s = some s2) :
    s2.best_of_gens.length = s.best_of_gens.length + 1 ∧ s2.num_gens = s.num_gens := by
  unfold initPopulation at h
  split at h
  · simp at h
  · injection h with h
    rw [← h]
    simp

lemma mustTerminate_gens_only {cfg : Config} {G : Nat} (hT : cfg.max_time = none)
    (hE : cfg.max_evals = none) (hG : cfg.max_gens = some G) (hGpos : 0 < G)
    (elapsed numEvals numGens : Nat) :
    mustTerminate cfg elapsed numEvals numGens = decide (G ≤ numGens) := by
  have hG0 : G ≠ 0 := by omega
  by_cases hle : G ≤ numGens
  · simp [mustTerminate, optTruthy, hT, hE, hG, hG0, hle]
  · simp [mustTerminate, optTruthy, hT, hE, hG, hG0, hle]

lemma evolveLoop_preserves_archive {cfg : Config} {evs : Nat → Indiv → EvalRes}
    {offs : Nat → List Indiv} {times : Nat → Nat} :
    ∀ (fuel : Nat) (s s2 : EvoState), s.best_of_gens.length = s.num_gens + 1 →
      evolveLoop cfg evs offs times fuel s = some s2 →
      s2.best_of_gens.length = s2.num_gens + 1 := by
  intro fuel
  induction fuel with
  | zero =>
    intro s s2 _ h
    simp [evolveLoop] at h
  | succ fuel ih =>
    intro s s2 hinv h
    simp only [evolveLoop] at h
    by_cases ht : mustTerminate cfg (times s.num_gens) s.num_evals s.num_gens = true
    · rw [if_pos ht] at h
      injection h with h
      rw [← h]
      exact hinv
    · rw [if_neg ht] at h
      cases hp : performGeneration cfg (evs s.num_gens) (offs s.num_gens) s with
      | none => rw [hp] at h; simp at h
      | some s3 =>
        rw [hp] at h
        have h3 : s3.best_of_gens.length = s3.num_gens + 1 := by
          rw [performGeneration_bog hp, performGeneration_num_gens hp]
          simp [hinv]
        exact ih s3 s2 h3 h

lemma evolveLoop_reaches {cfg : Config} {evs : Nat → Indiv → EvalRes}
    {offs : Nat → List Indiv} {times : Nat → Nat} {G : Nat}
    (hT : cfg.max_time = none) (hE : cfg.max_evals = none) (hG : cfg.max_gens = some G)
    (hGpos : 0 < G) (hec : 1 ≤ eliteCount cfg) (hecle : eliteCount cfg ≤ cfg.pop_size)
    (hoff : ∀ g, (offs g).length = cfg.pop_size) :
    ∀ (fuel : Nat) (s : EvoState), s.num_gens ≤ G → s.population.length = cfg.pop_size →
      G - s.num_gens < fuel →
      ∃ s2, evolveLoop cfg evs offs times fuel s = some s2 ∧ s2.num_gens = G := by
  intro fuel
  induction fuel with
  | zero =>
    intro s h1 h2 h3
    omega
  | succ fuel ih =>
    intro s hle hpop hfuel
    simp only [evolveLoop]
    rw [mustTerminate_gens_only hT hE hG hGpos]
    by_cases hG2 : G ≤ s.num_gens
    · rw [if_pos (by simpa using hG2)]
      exact ⟨s, rfl, by omega⟩
    · rw [if_neg (by simpa using hG2)]
      obtain ⟨s3, hp⟩ :=
        @performGeneration_total cfg (evs s.num_gens) (offs s.num_gens) s hec hecle hpop
          (hoff s.num_gens)
      obtain ⟨s2, hl, hg⟩ := ih s3 (by rw [performGeneration_num_gens hp]; omega)
        (by rw [performGeneration_pop_length hp, hoff])
        (by rw [performGeneration_num_gens hp]; omega)
      refine ⟨s2, ?_, hg⟩
      rw [hp]
      exact hl

/-! Reduction lemmas for the gradient-refinement target computation. -/

lemma nextStateValues_cons_none (Qtarget : Int → List ℚ) (tr : Transition)
    (rest : List Transition) (htr : tr.next_state = none) :
    nextStateValues Qtarget (tr :: rest) = 0 :: nextStateValues Qtarget rest := by
  simp [nextStateValues, nonFinalMask, nonFinalNextStates, htr, maskedAssign]

lemma nextStateValues_cons_some (Qtarget : Int → List ℚ) (tr : Transition)
    (rest : List Transition) (st : Int) (htr : tr.next_state = some st) :
    nextStateValues Qtarget (tr :: rest) =
      foldMax 0 (Qtarget st) :: nextStateValues Qtarget rest := by
  simp [nextStateValues, nonFinalMask, nonFinalNextStates, htr, maskedAssign]

/-! Claim theorems.  Each claim of CLAIMS.json is settled by exactly one
theorem below, together with a counterexample where the claim as stated
fails on the code, and a witness where the theorem carries hypotheses. -/

/-- Claim C1, counterexample: in the `cfgC1x` scenario the archived champion
fitness sequence after one generation is `[10, 5]`, which is strictly
decreasing — `best_of_gens[1].fitness < best_of_gens[0].fitness` — because
the reinsertion loop starts at elite index 1 and drops the sole elite. -/
theorem C1_counterexample :
    (performGeneration cfgC1x evC1x offC1x sC1x).map
        (fun s2 => s2.best_of_gens.map (·.fitness)) = some [10, 5] ∧
    ¬ ((10 : Int) ≤ 5) := by decide

/-- Claim C1 (amended): the champion archived at a generation boundary is a
member of, and dominates by fitness, the end-of-generation population; the
archive is not monotone across generations, because the top elite is never
reinserted and elites are re-evaluated. -/
theorem C1_amended_archive_dominates (cfg : Config) (ev : Indiv → EvalRes)
    (offspring : List Indiv) (s s2 : EvoState)
    (h : performGeneration cfg ev offspring s = some s2) :
    s2.best_of_gens.getLastD dummyIndiv ∈ s2.population ∧
    ∀ x ∈ s2.population, x.fitness ≤ (s2.best_of_gens.getLastD dummyIndiv).fitness := by
  obtain ⟨hne, hs⟩ := performGeneration_shape h
  have hlast : s2.best_of_gens.getLastD dummyIndiv = bestOf (genPop cfg ev offspring s) := by
    rw [hs]
    show (s.best_of_gens ++ [bestOf (genPop cfg ev offspring s)]).getLastD dummyIndiv = _
    exact List.getLastD_concat _ _ _
  have hpop2 : s2.population =
      replaceLowest (genPop cfg ev offspring s) (bestOf (genPop cfg ev offspring s)) := by
    rw [hs]
  constructor
  · rw [hlast, hpop2]
    unfold replaceLowest
    exact List.mem_append_right _ (List.mem_singleton.mpr rfl)
  · intro x hx
    rw [hpop2] at hx
    rw [hlast]
    rcases mem_replaceLowest hx with h1 | h1
    · exact fitness_le_bestOf h1
    · rw [h1]

/-- Claim C1, witness for the amended theorem at the concrete C1 scenario. -/
theorem C1_amended_archive_dominates_witness :
    performGeneration cfgC1x evC1x offC1x sC1x = some resC1x ∧
    resC1x.best_of_gens.getLastD dummyIndiv ∈ resC1x.population ∧
    ∀ x ∈ resC1x.population,
      x.fitness ≤ (resC1x.best_of_gens.getLastD dummyIndiv).fitness := by
  have h : performGeneration cfgC1x evC1x offC1x sC1x = some resC1x := by decide
  exact ⟨h, C1_amended_archive_dominates cfgC1x evC1x offC1x sC1x resC1x h⟩

/-- Claim C2, counterexample: with `elitism = 1` and `pop_size = 2`
(`elite_count = 2`) on the population with ids `[0, 1]`, the next population
consists of copies of id 1 only — the top individual id 0 does not survive,
so fewer than `elite_count` of the top-fitness individuals survive. -/
theorem C2_counterexample :
    eliteCount cfgC2x = 2 ∧
    sC2x.population.map (·.id) = [0, 1] ∧
    (performGeneration cfgC2x evC2x offC2x sC2x).map
      (fun s2 => s2.population.map (·.id)) = some [1, 1] := by decide

/-- Claim C2 (amended): every member of the next population originates from
the evaluated offspring or from the re-evaluated elites at sorted positions
`1..elite_count-1` — the top elite (index 0) is never reinserted, so at most
`elite_count - 1` of the previous generation's top individuals survive. -/
theorem C2_amended_next_population_sources (cfg : Config) (ev : Indiv → EvalRes)
    (offspring : List Indiv) (s s2 : EvoState)
    (h : performGeneration cfg ev offspring s = some s2) :
    ∀ x ∈ s2.population,
      x ∈ evalOffspring cfg ev offspring ∨
      x ∈ (reEvalElites cfg ev s.population).drop 1 := by
  obtain ⟨hne, hs⟩ := performGeneration_shape h
  have hGP : ∀ y, y ∈ genPop cfg ev offspring s →
      y ∈ evalOffspring cfg ev offspring ∨
      y ∈ (reEvalElites cfg ev s.population).drop 1 := by
    intro y hy
    unfold genPop at hy
    exact mem_eliteLoop hy
  intro x hx
  rw [hs] at hx
  have hx2 : x ∈ replaceLowest (genPop cfg ev offspring s)
      (bestOf (genPop cfg ev offspring s)) := hx
  rcases mem_replaceLowest hx2 with h1 | h1
  · exact hGP x h1
  · rw [h1]
    exact hGP _ (bestOf_mem (genPop_ne_nil hne))

/-- Claim C2, witness for the amended theorem at the concrete C2 scenario. -/
theorem C2_amended_next_population_sources_witness :
    performGeneration cfgC2x evC2x offC2x sC2x = some resC2x ∧
    ∀ x ∈ resC2x.population,
      x ∈ evalOffspring cfgC2x evC2x offC2x ∨
      x ∈ (reEvalElites cfgC2x evC2x sC2x.population).drop 1 := by
  have h : performGeneration cfgC2x evC2x offC2x sC2x = some resC2x := by decide
  exact ⟨h, C2_amended_next_population_sources cfgC2x evC2x offC2x sC2x resC2x h⟩

/-- Claim C3, counterexample: the elite batch (the single elite, id 0)
returns the replay contribution `[trC3e]`, but after the generation the
replay memory holds only the offspring contribution `[trC3o]` — the elite
batch's contribution was read and discarded, not concatenated. -/
theorem C3_counterexample :
    eliteSnapshot cfgC3x sC3x.population = [⟨0, 10, 0, 0⟩] ∧
    (evC3x ⟨0, 10, 0, 0⟩).memory = [trC3e] ∧
    (performGeneration cfgC3x evC3x offC3x sC3x).map (·.memory) = some [trC3o] ∧
    trC3e ∉ [trC3o] := by decide

/-- Claim C3 (amended): the replay memory after a generation is exactly the
joined replay contributions of the offspring batch prepended to the old
memory; the elite batch's contributions do not enter it. -/
theorem C3_amended_memory_update (cfg : Config) (ev : Indiv → EvalRes)
    (offspring : List Indiv) (s s2 : EvoState)
    (h : performGeneration cfg ev offspring s = some s2) :
    s2.memory = (joinMemories (batchMemories ev offspring)).getD [] ++ s.memory :=
  performGeneration_memory h

/-- Claim C3, witness for the amended theorem at the concrete C3 scenario. -/
theorem C3_amended_memory_update_witness :
    performGeneration cfgC3x evC3x offC3x sC3x = some resC3x ∧
    resC3x.memory = (joinMemories (batchMemories evC3x offC3x)).getD [] ++ sC3x.memory := by
  have h : performGeneration cfgC3x evC3x offC3x sC3x = some resC3x := by decide
  exact ⟨h, C3_amended_memory_update cfgC3x evC3x offC3x sC3x resC3x h⟩

/-- Claim C4, counterexample: in the C4 scenario a generation evaluates the
elite batch (1 individual) and the offspring batch (1 individual), yet
`num_evals` grows from 0 to 1 = `pop_size`, not to
`elite_count + pop_size = 2` — the elite evaluation is not counted. -/
theorem C4_counterexample :
    eliteCount cfgC4x = 1 ∧
    cfgC4x.pop_size = 1 ∧
    sC4x.num_evals = 0 ∧
    (performGeneration cfgC4x evC4x offC4x sC4x).map (·.num_evals) = some 1 ∧
    (1 : Nat) ≠ 1 + 1 := by decide

/-- Claim C4 (amended): each generation increments `num_evals` by exactly
`pop_size`; the elite evaluation batch is not accounted. -/
theorem C4_amended_num_evals (cfg : Config) (ev : Indiv → EvalRes)
    (offspring : List Indiv) (s s2 : EvoState)
    (h : performGeneration cfg ev offspring s = some s2) :
    s2.num_evals = s.num_evals + cfg.pop_size :=
  performGeneration_num_evals h

/-- Claim C4, witness for the amended theorem at the concrete C4 scenario. -/
theorem C4_amended_num_evals_witness :
    performGeneration cfgC4x evC4x offC4x sC4x = some resC4x ∧
    resC4x.num_evals = sC4x.num_evals + cfgC4x.pop_size := by
  have h : performGeneration cfgC4x evC4x offC4x sC4x = some resC4x := by decide
  exact ⟨h, C4_amended_num_evals cfgC4x evC4x offC4x sC4x resC4x h⟩

/-- Claim C5, counterexample: `elitism = 0` lies in the documented range
`[0, 1]` and the population has `pop_size` members, yet the generation
aborts (IndexError at `memories[0]` on the empty elite batch, modelled by
`none`), so no end-of-generation population of size `pop_size` exists. -/
theorem C5_counterexample :
    cfgC5x.elitism = 0 ∧
    sC5x.population.length = cfgC5x.pop_size ∧
    offC5x.length = cfgC5x.pop_size ∧
    performGeneration cfgC5x evC5x offC5x sC5x = none := by decide

/-- Claim C5 (amended): for every configuration with
`elite_count = ⌊elitism * pop_size⌋ ≥ 1` and `elite_count ≤ pop_size`, a
generation started on a population of `pop_size` individuals completes and
ends with exactly `pop_size` individuals: the remove-lowest/append pairs of
the elite loop and of the best reinsertion preserve the length. -/
theorem C5_amended_population_size (cfg : Config) (ev : Indiv → EvalRes)
    (offspring : List Indiv) (s : EvoState)
    (hec : 1 ≤ eliteCount cfg) (hecle : eliteCount cfg ≤ cfg.pop_size)
    (hpop : s.population.length = cfg.pop_size) (hoff : offspring.length = cfg.pop_size) :
    ∃ s2, performGeneration cfg ev offspring s = some s2 ∧
      s2.population.length = cfg.pop_size := by
  obtain ⟨s2, h⟩ := performGeneration_total hec hecle hpop hoff
  exact ⟨s2, h, by rw [performGeneration_pop_length h, hoff]⟩

/-- Claim C5, witness for the amended theorem at the concrete scenario
`cfgC5w` (one individual, `elitism = 1`). -/
theorem C5_amended_population_size_witness :
    1 ≤ eliteCount cfgC5w ∧ eliteCount cfgC5w ≤ cfgC5w.pop_size ∧
    sC5w.population.length = cfgC5w.pop_size ∧ offC5w.length = cfgC5w.pop_size ∧
    ∃ s2, performGeneration cfgC5w evC5w offC5w sC5w = some s2 ∧
      s2.population.length = cfgC5w.pop_size :=
  ⟨by decide, by decide, by decide, by decide,
    C5_amended_population_size cfgC5w evC5w offC5w sC5w
      (by decide) (by decide) (by decide) (by decide)⟩

/-- Claim C6, counterexample: a run started from a non-empty user-supplied
seed population skips initialization, so after one generation
`len(best_of_gens) = 1 = num_gens`, not `num_gens + 1 = 2`. -/
theorem C6_counterexample :
    sC6x.population ≠ [] ∧
    (evolve cfgC6x genC6x evInitC6x evsC6x offsC6x timesC6x 3 sC6x).map
      (fun s2 => (s2.best_of_gens.length, s2.num_gens)) = some (1, 1) ∧
    (1 : Nat) ≠ 1 + 1 := by decide

/-- Claim C6 (amended): for a run started with an empty population (so the
engine initializes and archives the initial best), every state the
generational loop returns satisfies `len(best_of_gens) = num_gens + 1`. -/
theorem C6_amended_archive_length (cfg : Config) (gen : Nat → Indiv)
    (evInit : Indiv → EvalRes) (evs : Nat → Indiv → EvalRes) (offs : Nat → List Indiv)
    (times : Nat → Nat) (fuel : Nat) (s s2 : EvoState)
    (hpop : s.population = []) (hbog : s.best_of_gens = []) (hng : s.num_gens = 0)
    (h : evolve cfg gen evInit evs offs times fuel s = some s2) :
    s2.best_of_gens.length = s2.num_gens + 1 := by
  unfold evolve at h
  rw [if_pos hpop] at h
  cases hi : initPopulation cfg gen evInit s with
  | none => rw [hi] at h; simp at h
  | some s1 =>
    rw [hi] at h
    obtain ⟨hlen, hgens⟩ := initPopulation_shape hi
    refine evolveLoop_preserves_archive fuel s1 s2 ?_ h
    rw [hlen, hgens, hng, hbog]
    simp

/-- Claim C6, witness for the amended theorem, running the evolution from an
empty population for one generation. -/
theorem C6_amended_archive_length_witness :
    sC6w.population = [] ∧ sC6w.best_of_gens = [] ∧ sC6w.num_gens = 0 ∧
    evolve cfgC6x genC6x evInitC6x evsC6x offsC6x timesC6x 2 sC6w = some resC6w ∧
    resC6w.best_of_gens.length = resC6w.num_gens + 1 := by
  have h : evolve cfgC6x genC6x evInitC6x evsC6x offsC6x timesC6x 2 sC6w = some resC6w := by
    decide
  exact ⟨rfl, rfl, rfl, h,
    C6_amended_archive_length cfgC6x genC6x evInitC6x evsC6x offsC6x timesC6x 2 sC6w resC6w
      rfl rfl rfl h⟩

/-- Claim C7: if the champion exposes no differentiable constants, or the
replay memory holds at most `batch_size = 128` transitions, the
gradient-refinement loop at initialization performs no update at all — the
constants are returned unchanged (and no error is raised: every iteration
just skips the guarded body). -/
theorem C7_refinement_skipped (step : List ℚ → List ℚ) (memLen : Nat) (consts : List ℚ)
    (h : consts.length = 0 ∨ memLen ≤ batch_size) :
    refineConstants step memLen consts = consts := by
  have hg : ¬ (0 < consts.length ∧ batch_size < memLen) := by
    rintro ⟨h1, h2⟩
    rcases h with h | h
    · omega
    · omega
  unfold refineConstants
  exact Function.iterate_fixed (by rw [if_neg hg]) refineIters

/-- Claim C7, witness: a replay memory of 100 ≤ 128 transitions leaves the
constant list `[1]` unchanged, for a step that would otherwise change it. -/
theorem C7_refinement_skipped_witness :
    (([(1 : ℚ)].length = 0 ∨ (100 : Nat) ≤ batch_size)) ∧
    refineConstants (fun cs => cs.map (fun q => q + 1)) 100 [(1 : ℚ)] = [(1 : ℚ)] :=
  ⟨Or.inr (by decide),
    C7_refinement_skipped (fun cs => cs.map (fun q => q + 1)) 100 [(1 : ℚ)]
      (Or.inr (by decide))⟩

/-- Claim C8: the expected state-action values computed from the target
snapshot (zeros, masked assignment of the rowwise maxima, `* GAMMA`, plus
the rewards — evo.py lines 229-233) equal, transition by transition, the
specification's target value `reward + 0.99 * max_over_actions(Q(next))`
for non-terminal transitions and exactly `reward` for terminal ones. -/
theorem C8_targets_match_spec (Qtarget : Int → List ℚ) (batch : List Transition) :
    expectedStateActionValues Qtarget batch = batch.map (specTargetValue Qtarget) := by
  induction batch with
  | nil => rfl
  | cons tr rest ih =>
    simp only [expectedStateActionValues] at ih ⊢
    cases htr : tr.next_state with
    | none =>
      rw [nextStateValues_cons_none Qtarget tr rest htr, List.zipWith_cons_cons,
        List.map_cons, ih]
      congr 1
      simp [specTargetValue, htr]
    | some st =>
      rw [nextStateValues_cons_some Qtarget tr rest st htr, List.zipWith_cons_cons,
        List.map_cons, ih]
      congr 1
      simp only [specTargetValue, htr]
      ring

/-- Claim C10: the minibatch target computation of a refinement iteration
fails (the `torch.cat` over the non-final next states raises on an empty
list) exactly when every sampled transition is terminal; with at least one
non-terminal transition it proceeds. -/
theorem C10_all_terminal_minibatch_fails (Qtarget : Int → List ℚ)
    (batch : List Transition) :
    refineSampleTargets Qtarget batch = none ↔ ∀ tr ∈ batch, tr.next_state = none := by
  constructor
  · intro h
    cases hnf : nonFinalNextStates batch with
    | nil => exact List.filterMap_eq_nil_iff.mp hnf
    | cons a as =>
      unfold refineSampleTargets at h
      rw [hnf] at h
      simp at h
  · intro h
    have hnf : nonFinalNextStates batch = [] := List.filterMap_eq_nil_iff.mpr h
    unfold refineSampleTargets
    rw [hnf]

/-- Claim C9: with `max_gens = G > 0` configured and `max_evals`, `max_time`
unset, the generational loop (termination checked before each generation,
each generation incrementing `num_gens` by one) halts with `num_gens = G`
exactly, for any per-generation oracles producing `pop_size` offspring. -/
theorem C9_halts_exactly_at_max_gens (cfg : Config) (evs : Nat → Indiv → EvalRes)
    (offs : Nat → List Indiv) (times : Nat → Nat) (G fuel : Nat) (s : EvoState)
    (hT : cfg.max_time = none) (hE : cfg.max_evals = none) (hG : cfg.max_gens = some G)
    (hGpos : 0 < G) (hec : 1 ≤ eliteCount cfg) (hecle : eliteCount cfg ≤ cfg.pop_size)
    (hpop : s.population.length = cfg.pop_size)
    (hoff : ∀ g, (offs g).length = cfg.pop_size)
    (hng : s.num_gens = 0) (hfuel : G < fuel) :
    ∃ s2, evolveLoop cfg evs offs times fuel s = some s2 ∧ s2.num_gens = G :=
  evolveLoop_reaches hT hE hG hGpos hec hecle hoff fuel s (by omega) hpop (by omega)

/-- Claim C9, witness: a concrete run with `max_gens = 2` and fuel 3 halts
with `num_gens = 2`. -/
theorem C9_halts_exactly_at_max_gens_witness :
    cfgC9w.max_time = none ∧ cfgC9w.max_evals = none ∧ cfgC9w.max_gens = some 2 ∧
    (0 : Nat) < 2 ∧ 1 ≤ eliteCount cfgC9w ∧ eliteCount cfgC9w ≤ cfgC9w.pop_size ∧
    sC9w.population.length = cfgC9w.pop_size ∧
    (∀ g, (offsC9w g).length = cfgC9w.pop_size) ∧
    sC9w.num_gens = 0 ∧ (2 : Nat) < 3 ∧
    ∃ s2, evolveLoop cfgC9w evsC9w offsC9w timesC9w 3 sC9w = some s2 ∧ s2.num_gens = 2 := by
  refine ⟨rfl, rfl, rfl, by decide, by decide, by decide, by decide, fun g => rfl, rfl,
    by decide, ?_⟩
  exact C9_halts_exactly_at_max_gens cfgC9w evsC9w offsC9w timesC9w 2 3 sC9w
    rfl rfl rfl (by decide) (by decide) (by decide) (by decide) (fun g => rfl) rfl (by decide)
